import Mathlib

/-!
Verification development for `fetch_todos.py` (python-api-toolkit).

The script is a linear batch job: fetch a JSON array of todo records over
HTTP, reshape it with pandas (`process_data`), write it to `todos.csv`
(`save_to_csv`), and print a preview (`preview`).  We embed the record /
DataFrame fragment of pandas that the script exercises, translate each
function of the source, and prove the specification's claims about them.
-/

namespace FetchTodos

/-- A Python scalar value as it appears in the JSON records and in pandas
cells.  `pnone` stands for a missing value (Python `None` / pandas `NaN`). -/
inductive PyVal where
  | pbool : Bool → PyVal
  | pint : Int → PyVal
  | pstr : String → PyVal
  | pnone : PyVal
deriving DecidableEq, Repr

/-- One raw JSON record: an ordered association list of key/value pairs,
mirroring a Python dict (insertion-ordered keys). -/
abbrev RawRecord := List (String × PyVal)

/-- Key lookup in a record; a missing key reads as a missing value (pandas
fills `NaN` for keys absent from a given record). -/
def lookupField (r : RawRecord) (k : String) : PyVal :=
  match r.find? (fun kv => kv.1 == k) with
  | some kv => kv.2
  | none => PyVal.pnone

/-- Whether a record carries the key `k`. -/
def hasKey (r : RawRecord) (k : String) : Bool :=
  (r.find? (fun kv => kv.1 == k)).isSome

/-- Append a column name if it is not already present (pandas keeps the
order of first appearance when building a frame from a list of dicts). -/
def insertKey (cs : List String) (k : String) : List String :=
  if k ∈ cs then cs else cs ++ [k]

/-- Accumulate the keys of one record into the running column list. -/
def addKeys (acc : List String) : List (String × PyVal) → List String
  | [] => acc
  | kv :: rest => addKeys (insertKey acc kv.1) rest

/-- Accumulate the keys of all records. -/
def collectColsAux (acc : List String) : List RawRecord → List String
  | [] => acc
  | r :: rs => collectColsAux (addKeys acc r) rs

/-- The column set of `pd.DataFrame(data)`: the union of all record keys in
order of first appearance. -/
def collectCols (data : List RawRecord) : List String :=
  collectColsAux [] data

/-- A pandas DataFrame: an ordered list of column names and one cell list
per row, aligned with the column list. -/
structure DataFrame where
  cols : List String
  rows : List (List PyVal)
deriving DecidableEq, Repr

/-- Index of the first column named `c`, `none` when the name is absent
(a pandas `KeyError`). -/
def colIdx (cs : List String) (c : String) : Option Nat :=
  match cs with
  | [] => none
  | c0 :: rest => if c0 = c then some 0 else (colIdx rest c).map (· + 1)

/-- `pd.DataFrame(data)`: one row per record, cells looked up per column,
missing keys becoming missing values. -/
def makeDF (data : List RawRecord) : DataFrame :=
  ⟨collectCols data,
   data.map (fun r => (collectCols data).map (lookupField r))⟩

/-- The column renaming of `process_data` (`df.rename(columns=...)`):
`userId → user_id`, `id → todo_id`, `title → task`,
`completed → is_completed`; other names are untouched. -/
def renameKey (k : String) : String :=
  if k = "userId" then "user_id"
  else if k = "id" then "todo_id"
  else if k = "title" then "task"
  else if k = "completed" then "is_completed"
  else k

/-- `df.rename(columns=...)`: relabels columns, leaves every cell alone. -/
def rename (df : DataFrame) : DataFrame :=
  ⟨df.cols.map renameKey, df.rows⟩

/-- `df[c]`: the cell list of column `c`, or `none` on a `KeyError`. -/
def getCol (df : DataFrame) (c : String) : Option (List PyVal) :=
  match colIdx df.cols c with
  | none => none
  | some i => some (df.rows.map (fun row => row.getD i PyVal.pnone))

/-- `df[c] = vs`: overwrite column `c` when present, otherwise append it as
a new last column. -/
def setCol (df : DataFrame) (c : String) (vs : List PyVal) : DataFrame :=
  match colIdx df.cols c with
  | some i => ⟨df.cols, (df.rows.zip vs).map (fun rv => rv.1.set i rv.2)⟩
  | none => ⟨df.cols ++ [c], (df.rows.zip vs).map (fun rv => rv.1 ++ [rv.2])⟩

/-- `df[[c1, ..., ck]]`: projection onto the named columns in the given
order; `none` on a `KeyError` when some name is absent. -/
def selectCols (df : DataFrame) (cs : List String) : Option DataFrame :=
  if cs.all (fun c => (colIdx df.cols c).isSome) then
    some ⟨cs, df.rows.map (fun row =>
      cs.map (fun c => row.getD ((colIdx df.cols c).getD 0) PyVal.pnone))⟩
  else none

/-- The two-valued lookup of line 106:
`df["is_completed"].map({True: "Done ✅", False: "Pending ⏳"})`.
`Series.map` with a dict resolves each cell through Python dict lookup,
which uses hash equality: `1 == True` and `0 == False` hash alike, so the
integers 1 and 0 receive the `True`/`False` labels just as the booleans
do.  Every other value (other integers, strings, missing) finds no key
and maps to a missing value (`NaN`). -/
def statusOf (v : PyVal) : PyVal :=
  if v = PyVal.pbool true ∨ v = PyVal.pint 1 then PyVal.pstr "Done ✅"
  else if v = PyVal.pbool false ∨ v = PyVal.pint 0 then PyVal.pstr "Pending ⏳"
  else PyVal.pnone

/-- One step of the summary sum: add one cell to the running total.
Booleans count 1/0, integers add, missing values are skipped, and a
string cell makes the sum fail. -/
def addCell (v : PyVal) (acc : Option Int) : Option Int :=
  match acc, v with
  | some a, PyVal.pbool b => some ((if b then 1 else 0) + a)
  | some a, PyVal.pint n => some (n + a)
  | some a, PyVal.pnone => some a
  | _, _ => none

/-- `df["is_completed"].sum()` with pandas skip-NaN semantics; `none`
models the `TypeError` the script would hit at `total - completed` when
the column holds strings. -/
def sumCol : List PyVal → Option Int
  | [] => some 0
  | v :: vs => addCell v (sumCol vs)

/-- The fixed output column order of line 109. -/
def theFiveCols : List String :=
  ["todo_id", "user_id", "task", "is_completed", "status"]

/-- `process_data` (lines 82–120): build the frame, rename the columns,
derive `status`, project onto the five fixed columns, and compute the
summary `(total, completed, pending)`.  Returns `none` when the script
would raise (e.g. the `KeyError` on `df["is_completed"]` for inputs that
yield no such column). -/
def process_data (data : List RawRecord) :
    Option (DataFrame × Int × Int × Int) :=
  match getCol (rename (makeDF data)) "is_completed" with
  | none => none
  | some comp =>
    match selectCols (setCol (rename (makeDF data)) "status"
        (comp.map statusOf)) theFiveCols with
    | none => none
    | some df2 =>
      match getCol df2 "is_completed" with
      | none => none
      | some comp2 =>
        match sumCol comp2 with
        | none => none
        | some completed =>
          some (df2, (df2.rows.length : Int), completed,
            (df2.rows.length : Int) - completed)

/-- CSV field quoting as `to_csv` performs it: quote only when the text
embeds a delimiter, a quote or a newline. -/
def csvEscape (s : String) : String :=
  if s.data.contains ',' || s.data.contains '\"' || s.data.contains '\n' then
    "\"" ++ s.replace "\"" "\"\"" ++ "\""
  else s

/-- Rendering of one cell in `to_csv`: booleans as `True` / `False`,
integers in decimal, missing values as the empty field. -/
def renderCell : PyVal → String
  | PyVal.pbool true => "True"
  | PyVal.pbool false => "False"
  | PyVal.pint n => toString n
  | PyVal.pstr s => csvEscape s
  | PyVal.pnone => ""

/-- The header line `to_csv` writes. -/
def csvHeader (df : DataFrame) : String :=
  String.intercalate "," (df.cols.map csvEscape)

/-- The lines of the file written by `save_to_csv` (line 135,
`df.to_csv(filename, index=False)`): the header, then one line per row. -/
def csvLines (df : DataFrame) : List String :=
  csvHeader df :: df.rows.map (fun row =>
    String.intercalate "," (row.map renderCell))

/-- `df.head(n)`: the first `n` rows (all of them when `n` exceeds the
row count). -/
def head (df : DataFrame) (n : Nat) : DataFrame :=
  ⟨df.cols, df.rows.take n⟩

/-- The rows printed by `preview` (line 154,
`df.head(n).to_string(index=False)`). -/
def preview (df : DataFrame) (n : Nat) : List (List PyVal) :=
  (head df n).rows

/-- `preview` with its default argument `n = 5`. -/
def previewDefault (df : DataFrame) : List (List PyVal) :=
  preview df 5

/-- The fixed output path (`OUTPUT = "todos.csv"`). -/
def OUTPUT : String := "todos.csv"

/-- The outcome of the one HTTP GET of `fetch_todos` (a 10-second bound
applies to the whole request): either a parsed JSON array, or one of the
four `requests` failure kinds the script catches. -/
inductive FetchOutcome where
  | success : List RawRecord → FetchOutcome
  | connectionError : FetchOutcome
  | timeoutError : FetchOutcome
  | httpError : Nat → FetchOutcome
  | otherError : String → FetchOutcome
deriving DecidableEq, Repr

/-- A fatal fetch failure: the lines printed and the `sys.exit` code. -/
structure FetchFailure where
  messages : List String
  exitCode : Nat
deriving DecidableEq, Repr

/-- `fetch_todos` (lines 32–75): returns the parsed records on success; on
each of the four caught exceptions it prints a message and calls
`sys.exit(1)`. -/
def fetch_todos : FetchOutcome → Except FetchFailure (List RawRecord)
  | FetchOutcome.success data => Except.ok data
  | FetchOutcome.connectionError => Except.error
      ⟨["❌  ERROR: Could not connect. Check your internet connection."], 1⟩
  | FetchOutcome.timeoutError => Except.error
      ⟨["❌  ERROR: The request timed out. The server may be slow."], 1⟩
  | FetchOutcome.httpError code => Except.error
      ⟨["❌  HTTP ERROR", "    Status Code: " ++ toString code], 1⟩
  | FetchOutcome.otherError cause => Except.error
      ⟨["❌  UNEXPECTED ERROR: " ++ cause], 1⟩

/-- The observable result of one run of `main`: the process exit code, the
file written (path and lines, `none` when nothing was written) and which
of the four steps completed. -/
structure RunResult where
  exitCode : Nat
  outputFile : Option (String × List String)
  fetched : Bool
  transformed : Bool
  saved : Bool
  previewed : Bool
deriving DecidableEq, Repr

/-- `main` (lines 162–181): fetch, then process, then save, then preview,
in sequence.  A fetch failure exits via `sys.exit(1)` before anything
else runs; an exception escaping `process_data` aborts the script with
Python's exit code 1 before the file is written; otherwise all four steps
complete and the process exits 0. -/
def run (o : FetchOutcome) : RunResult :=
  match fetch_todos o with
  | Except.error f => ⟨f.exitCode, none, false, false, false, false⟩
  | Except.ok data =>
    match process_data data with
    | none => ⟨1, none, true, false, false, false⟩
    | some (df, _, _, _) =>
        ⟨0, some (OUTPUT, csvLines df), true, true, true, true⟩

/-- The one-record input of the spec's single-row scenario:
`[{"userId":1,"id":1,"title":"A","completed":true}]`. -/
def sampleRecord : RawRecord :=
  [("userId", PyVal.pint 1), ("id", PyVal.pint 1),
   ("title", PyVal.pstr "A"), ("completed", PyVal.pbool true)]

/-- The five-column, one-row frame `process_data` produces from
`sampleRecord`. -/
def sampleDF : DataFrame :=
  ⟨theFiveCols,
   [[PyVal.pint 1, PyVal.pint 1, PyVal.pstr "A",
     PyVal.pbool true, PyVal.pstr "Done ✅"]]⟩

/-- A record that lacks the `completed` key altogether. -/
def noCompletedRecord : RawRecord :=
  [("userId", PyVal.pint 1), ("id", PyVal.pint 1), ("title", PyVal.pstr "A")]

/-- A record whose `completed` value is the missing value (`null`). -/
def nullCompletedRecord : RawRecord :=
  [("userId", PyVal.pint 2), ("id", PyVal.pint 2),
   ("title", PyVal.pstr "B"), ("completed", PyVal.pnone)]

/-! ### Helper lemmas about the column machinery -/

theorem colIdx_get {cs : List String} {c : String} {i : Nat}
    (h : colIdx cs c = some i) : cs[i]? = some c := by
  induction cs generalizing i with
  | nil => simp [colIdx] at h
  | cons c0 rest ih =>
    rw [colIdx] at h
    by_cases h0 : c0 = c
    · rw [if_pos h0] at h
      cases h
      rw [List.getElem?_cons_zero, h0]
    · rw [if_neg h0, Option.map_eq_some'] at h
      obtain ⟨j, hj, hji⟩ := h
      cases hji
      rw [List.getElem?_cons_succ]
      exact ih hj

theorem colIdx_lt_length {cs : List String} {c : String} {i : Nat}
    (h : colIdx cs c = some i) : i < cs.length := by
  obtain ⟨hlt, _⟩ := List.getElem?_eq_some.mp (colIdx_get h)
  exact hlt

theorem colIdx_isSome_iff {cs : List String} {c : String} :
    (colIdx cs c).isSome ↔ c ∈ cs := by
  induction cs with
  | nil => simp [colIdx]
  | cons c0 rest ih =>
    rw [colIdx]
    by_cases h0 : c0 = c
    · simp [h0]
    · rw [if_neg h0]
      have hmap : (Option.map (· + 1) (colIdx rest c)).isSome
          = (colIdx rest c).isSome := by
        cases colIdx rest c <;> rfl
      rw [hmap, ih, List.mem_cons]
      constructor
      · exact Or.inr
      · rintro (hc | hc)
        · exact absurd hc.symm h0
        · exact hc

theorem colIdx_eq_none {cs : List String} {c : String} (h : c ∉ cs) :
    colIdx cs c = none := by
  cases hc : colIdx cs c with
  | none => rfl
  | some i =>
    exact absurd (colIdx_isSome_iff.mp (by rw [hc]; rfl)) h

theorem colIdx_map_congr {f : String → String} {cs : List String}
    {c c' : String} (h : ∀ k ∈ cs, f k = c' ↔ k = c) :
    colIdx (cs.map f) c' = colIdx cs c := by
  induction cs with
  | nil => rfl
  | cons c0 rest ih =>
    have h0 := h c0 (List.mem_cons_self _ _)
    rw [List.map_cons, colIdx, colIdx]
    by_cases hc : c0 = c
    · rw [if_pos (h0.mpr hc), if_pos hc]
    · rw [if_neg (fun he => hc (h0.mp he)), if_neg hc,
        ih (fun k hk => h k (List.mem_cons_of_mem _ hk))]

theorem colIdx_append_left {cs : List String} {c : String} {i : Nat}
    (l : List String) (h : colIdx cs c = some i) :
    colIdx (cs ++ l) c = some i := by
  induction cs generalizing i with
  | nil => simp [colIdx] at h
  | cons c0 rest ih =>
    rw [colIdx] at h
    rw [List.cons_append, colIdx]
    by_cases h0 : c0 = c
    · rw [if_pos h0] at h ⊢
      exact h
    · rw [if_neg h0] at h ⊢
      rw [Option.map_eq_some'] at h
      obtain ⟨j, hj, hji⟩ := h
      rw [ih hj]
      simpa using hji

theorem colIdx_append_self {cs : List String} {c : String}
    (h : colIdx cs c = none) : colIdx (cs ++ [c]) c = some cs.length := by
  induction cs with
  | nil => simp [colIdx]
  | cons c0 rest ih =>
    rw [colIdx] at h
    by_cases h0 : c0 = c
    · rw [if_pos h0] at h
      cases h
    · rw [if_neg h0] at h
      have hnone : colIdx rest c = none := by
        cases hrc : colIdx rest c with
        | none => rfl
        | some j => rw [hrc] at h; cases h
      rw [List.cons_append, colIdx, if_neg h0, ih hnone]
      rfl

theorem getD_map_colIdx {cs : List String} {c : String} {i : Nat}
    (h : colIdx cs c = some i) (f : String → PyVal) :
    (cs.map f).getD i PyVal.pnone = f c := by
  rw [List.getD_eq_getElem?_getD, List.getElem?_map, colIdx_get h]
  rfl

theorem getD_set_self {l : List PyVal} {i : Nat} {v d : PyVal}
    (h : i < l.length) : (l.set i v).getD i d = v := by
  rw [List.getD_eq_getElem?_getD, List.getElem?_set_self h]
  rfl

theorem getD_set_ne {l : List PyVal} {i j : Nat} {v d : PyVal}
    (h : i ≠ j) : (l.set i v).getD j d = l.getD j d := by
  rw [List.getD_eq_getElem?_getD, List.getElem?_set_ne h,
    ← List.getD_eq_getElem?_getD]

theorem getD_concat_length {l : List PyVal} {v d : PyVal} :
    (l ++ [v]).getD l.length d = v := by
  rw [List.getD_eq_getElem?_getD, List.getElem?_concat_length]
  rfl

theorem zip_self_map {α β : Type} (l : List α) (g : α → β) :
    l.zip (l.map g) = l.map (fun a => (a, g a)) := by
  induction l with
  | nil => rfl
  | cons x xs ih => rw [List.map_cons, List.zip_cons_cons, ih, List.map_cons]

/-! ### Helper lemmas about keys and columns of the raw records -/

theorem mem_insertKey {cs : List String} {k c : String} :
    c ∈ insertKey cs k ↔ c ∈ cs ∨ c = k := by
  unfold insertKey
  split
  · next h =>
    constructor
    · exact Or.inl
    · rintro (hc | rfl)
      · exact hc
      · exact h
  · simp [List.mem_append]

theorem mem_addKeys {c : String} (r : List (String × PyVal)) :
    ∀ acc, c ∈ addKeys acc r ↔ c ∈ acc ∨ ∃ kv ∈ r, kv.1 = c := by
  induction r with
  | nil => intro acc; simp [addKeys]
  | cons kv rest ih =>
    intro acc
    rw [addKeys, ih, mem_insertKey]
    constructor
    · rintro ((hacc | rfl) | ⟨kv', hkv', rfl⟩)
      · exact Or.inl hacc
      · exact Or.inr ⟨kv, List.mem_cons_self _ _, rfl⟩
      · exact Or.inr ⟨kv', List.mem_cons_of_mem _ hkv', rfl⟩
    · rintro (hacc | ⟨kv', hkv', rfl⟩)
      · exact Or.inl (Or.inl hacc)
      · rcases List.mem_cons.mp hkv' with rfl | hmem
        · exact Or.inl (Or.inr rfl)
        · exact Or.inr ⟨kv', hmem, rfl⟩

theorem mem_collectColsAux {c : String} (ds : List RawRecord) :
    ∀ acc, c ∈ collectColsAux acc ds ↔
      c ∈ acc ∨ ∃ r ∈ ds, ∃ kv ∈ r, kv.1 = c := by
  induction ds with
  | nil => intro acc; simp [collectColsAux]
  | cons r rs ih =>
    intro acc
    rw [collectColsAux, ih, mem_addKeys]
    constructor
    · rintro ((hacc | ⟨kv, hkv, rfl⟩) | ⟨r', hr', hkv⟩)
      · exact Or.inl hacc
      · exact Or.inr ⟨r, List.mem_cons_self _ _, kv, hkv, rfl⟩
      · exact Or.inr ⟨r', List.mem_cons_of_mem _ hr', hkv⟩
    · rintro (hacc | ⟨r', hr', kv, hkv, rfl⟩)
      · exact Or.inl (Or.inl hacc)
      · rcases List.mem_cons.mp hr' with rfl | hmem
        · exact Or.inl (Or.inr ⟨kv, hkv, rfl⟩)
        · exact Or.inr ⟨r', hmem, kv, hkv, rfl⟩

theorem mem_collectCols {c : String} {data : List RawRecord} :
    c ∈ collectCols data ↔ ∃ r ∈ data, ∃ kv ∈ r, kv.1 = c := by
  rw [collectCols, mem_collectColsAux]
  simp

theorem hasKey_iff {r : RawRecord} {k : String} :
    hasKey r k = true ↔ ∃ kv ∈ r, kv.1 = k := by
  rw [hasKey, List.find?_isSome]
  constructor
  · rintro ⟨kv, hkv, hk⟩
    exact ⟨kv, hkv, by simpa using hk⟩
  · rintro ⟨kv, hkv, hk⟩
    exact ⟨kv, hkv, by simpa using hk⟩

theorem lookupField_cases (r : RawRecord) (k : String) :
    (∃ kv ∈ r, kv.1 = k ∧ kv.2 = lookupField r k) ∨
      lookupField r k = PyVal.pnone := by
  unfold lookupField
  cases hf : r.find? (fun kv => kv.1 == k) with
  | none => exact Or.inr rfl
  | some kv =>
    exact Or.inl ⟨kv, List.mem_of_find?_eq_some hf,
      by simpa using List.find?_some hf, rfl⟩

/-! ### Helper lemmas about the summary sum -/

theorem sumCol_boolish (vs : List PyVal)
    (h : ∀ v ∈ vs, v = PyVal.pbool true ∨ v = PyVal.pbool false ∨
      v = PyVal.pnone) :
    sumCol vs = some ((vs.countP (fun v => v == PyVal.pbool true) : Nat) : Int) := by
  induction vs with
  | nil => rfl
  | cons v rest ih =>
    have hrest := ih (fun x hx => h x (List.mem_cons_of_mem _ hx))
    rw [sumCol, hrest]
    rcases h v (List.mem_cons_self _ _) with rfl | rfl | rfl
    · simp only [addCell, List.countP_cons, Option.some.injEq]
      norm_num
      ring
    · simp only [addCell, List.countP_cons, Option.some.injEq]
      norm_num
    · simp only [addCell, List.countP_cons, Option.some.injEq]
      norm_num
      decide

theorem sumCol_isSome (vs : List PyVal)
    (h : ∀ v ∈ vs, ∀ s, v ≠ PyVal.pstr s) : (sumCol vs).isSome := by
  induction vs with
  | nil => rfl
  | cons v rest ih =>
    have hrest := ih (fun x hx => h x (List.mem_cons_of_mem _ hx))
    rw [Option.isSome_iff_exists] at hrest
    obtain ⟨a, ha⟩ := hrest
    rw [sumCol, ha]
    cases v with
    | pbool b => rfl
    | pint n => rfl
    | pstr s => exact absurd rfl (h _ (List.mem_cons_self _ _) s)
    | pnone => rfl

/-! ### Characterizations of the DataFrame operations -/

theorem getCol_eq_some {df : DataFrame} {c : String} {vs : List PyVal}
    (h : getCol df c = some vs) :
    ∃ i, colIdx df.cols c = some i ∧
      vs = df.rows.map (fun row => row.getD i PyVal.pnone) := by
  unfold getCol at h
  cases hc : colIdx df.cols c with
  | none => rw [hc] at h; cases h
  | some i =>
    rw [hc] at h
    injection h with h
    exact ⟨i, rfl, h.symm⟩

theorem getCol_of_colIdx {df : DataFrame} {c : String} {i : Nat}
    (h : colIdx df.cols c = some i) :
    getCol df c = some (df.rows.map (fun row => row.getD i PyVal.pnone)) := by
  unfold getCol
  rw [h]

theorem selectCols_eq_some {df : DataFrame} {cs : List String}
    {df' : DataFrame} (h : selectCols df cs = some df') :
    (∀ c ∈ cs, (colIdx df.cols c).isSome) ∧ df'.cols = cs ∧
      df'.rows = df.rows.map (fun row =>
        cs.map (fun c => row.getD ((colIdx df.cols c).getD 0) PyVal.pnone)) := by
  unfold selectCols at h
  split at h
  · next hall =>
    injection h with h
    refine ⟨fun c hc => List.all_eq_true.mp hall c hc, ?_, ?_⟩
    · rw [← h]
    · rw [← h]
  · cases h

theorem selectCols_of_all {df : DataFrame} {cs : List String}
    (h : ∀ c ∈ cs, (colIdx df.cols c).isSome) :
    selectCols df cs = some ⟨cs, df.rows.map (fun row =>
      cs.map (fun c => row.getD ((colIdx df.cols c).getD 0) PyVal.pnone))⟩ := by
  unfold selectCols
  rw [if_pos (List.all_eq_true.mpr h)]

/-! ### The transform pipeline, characterized -/

theorem rename_makeDF_WF (data : List RawRecord) :
    ∀ r ∈ (rename (makeDF data)).rows,
      r.length = (rename (makeDF data)).cols.length := by
  intro r hr
  simp only [rename, makeDF, List.mem_map] at hr ⊢
  obtain ⟨rec, _, rfl⟩ := hr
  rw [List.length_map, List.length_map]

theorem rename_makeDF_length (data : List RawRecord) :
    (rename (makeDF data)).rows.length = data.length := by
  simp [rename, makeDF]

/-- After deriving `status` and projecting onto the five fixed columns,
the frame has the five columns, one row per input row, and each row's
last cell is the `statusOf` image of its fourth (`is_completed`) cell. -/
theorem transform_tail_char {df0 : DataFrame} {comp : List PyVal} {iC : Nat}
    {df2 : DataFrame}
    (hiC : colIdx df0.cols "is_completed" = some iC)
    (hcomp : comp = df0.rows.map (fun row => row.getD iC PyVal.pnone))
    (hWF : ∀ r ∈ df0.rows, r.length = df0.cols.length)
    (h2 : selectCols (setCol df0 "status" (comp.map statusOf)) theFiveCols
      = some df2) :
    df2.cols = theFiveCols ∧ df2.rows.length = df0.rows.length ∧
    ∀ row ∈ df2.rows, ∃ a b d e, row = [a, b, d, e, statusOf e] := by
  have hone : ∃ (cols1 : List String) (hfn : List PyVal → List PyVal)
      (iS' iC' : Nat),
      setCol df0 "status" (comp.map statusOf) = ⟨cols1, df0.rows.map hfn⟩ ∧
      colIdx cols1 "status" = some iS' ∧
      colIdx cols1 "is_completed" = some iC' ∧
      (∀ r ∈ df0.rows,
        (hfn r).getD iS' PyVal.pnone = statusOf (r.getD iC PyVal.pnone)) ∧
      (∀ r ∈ df0.rows,
        (hfn r).getD iC' PyVal.pnone = r.getD iC PyVal.pnone) := by
    have hzip : df0.rows.zip (comp.map statusOf)
        = df0.rows.map (fun r => (r, statusOf (r.getD iC PyVal.pnone))) := by
      rw [hcomp, List.map_map, zip_self_map]
      rfl
    cases hS : colIdx df0.cols "status" with
    | some iS =>
      refine ⟨df0.cols, fun r => r.set iS (statusOf (r.getD iC PyVal.pnone)),
        iS, iC, ?_, hS, hiC, ?_, ?_⟩
      · have hset : setCol df0 "status" (comp.map statusOf)
            = ⟨df0.cols, (df0.rows.zip (comp.map statusOf)).map
                (fun rv => rv.1.set iS rv.2)⟩ := by
          unfold setCol
          rw [hS]
        rw [hset, hzip, List.map_map]
        rfl
      · intro r hr
        exact getD_set_self (by rw [hWF r hr]; exact colIdx_lt_length hS)
      · intro r hr
        refine getD_set_ne ?_
        intro he
        have hg1 := colIdx_get hS
        have hg2 := colIdx_get hiC
        rw [he, hg2] at hg1
        injection hg1 with hg1
        exact absurd hg1 (by decide)
    | none =>
      refine ⟨df0.cols ++ ["status"],
        fun r => r ++ [statusOf (r.getD iC PyVal.pnone)],
        df0.cols.length, iC, ?_, colIdx_append_self hS,
        colIdx_append_left _ hiC, ?_, ?_⟩
      · have hset : setCol df0 "status" (comp.map statusOf)
            = ⟨df0.cols ++ ["status"], (df0.rows.zip (comp.map statusOf)).map
                (fun rv => rv.1 ++ [rv.2])⟩ := by
          unfold setCol
          rw [hS]
        rw [hset, hzip, List.map_map]
        rfl
      · intro r hr
        rw [← hWF r hr]
        exact getD_concat_length
      · intro r hr
        exact List.getD_append _ _ _ _
          (by rw [hWF r hr]; exact colIdx_lt_length hiC)
  obtain ⟨cols1, hfn, iS', iC', hsetEq, hiS', hiC', hstat, hisc⟩ := hone
  rw [hsetEq] at h2
  obtain ⟨hall, hcols2, hrows2⟩ := selectCols_eq_some h2
  rw [List.map_map] at hrows2
  refine ⟨hcols2, ?_, ?_⟩
  · rw [hrows2, List.length_map]
  · intro row hrow
    rw [hrows2, List.mem_map] at hrow
    obtain ⟨r, hr, hrq⟩ := hrow
    simp only [Function.comp_apply, theFiveCols, List.map_cons, List.map_nil,
      hiS', hiC', Option.getD_some] at hrq
    rw [hstat r hr, hisc r hr] at hrq
    exact ⟨_, _, _, _, hrq.symm⟩

/-- Characterization of a successful `process_data` run: the fixed five
columns, one output row per input record, each output row five cells
whose `status` cell is the `statusOf` image of its `is_completed` cell,
and the summary counters tied to the frame. -/
theorem process_data_char {data : List RawRecord} {df : DataFrame}
    {t c p : Int} (h : process_data data = some (df, t, c, p)) :
    df.cols = theFiveCols ∧
    df.rows.length = data.length ∧
    (∀ row ∈ df.rows, ∃ a b d e, row = [a, b, d, e, statusOf e]) ∧
    (∃ vs, getCol df "is_completed" = some vs ∧ sumCol vs = some c) ∧
    t = (data.length : Int) ∧ p = t - c := by
  unfold process_data at h
  split at h
  next h1 => cases h
  next comp h1 =>
  split at h
  next h2 => cases h
  next df2 h2 =>
  split at h
  next h3 => cases h
  next comp2 h3 =>
  split at h
  next h4 => cases h
  next completed h4 =>
  simp only [Option.some.injEq, Prod.mk.injEq] at h
  obtain ⟨hdf, ht, hc, hp⟩ := h
  obtain ⟨iC, hiC, hcomp⟩ := getCol_eq_some h1
  have hWF := rename_makeDF_WF data
  have hlen := rename_makeDF_length data
  obtain ⟨hcols2, hlen2, hrows2⟩ := transform_tail_char hiC hcomp hWF h2
  subst hdf
  refine ⟨hcols2, by rw [hlen2, hlen], hrows2,
    ⟨comp2, h3, by rw [← hc]; exact h4⟩, ?_, ?_⟩
  · rw [← ht]
    exact_mod_cast congrArg (fun n : Nat => (n : Int)) (hlen2.trans hlen)
  · rw [← hp, ← ht, ← hc]

/-! ### Symbolic run of the transform on schema-keyed records -/

/-- A value outside the dict's key classes — not a boolean and not one of
the integers 1 and 0 — maps to a missing status. -/
theorem statusOf_eq_pnone {v : PyVal} (hb : ∀ b, v ≠ PyVal.pbool b)
    (h1 : v ≠ PyVal.pint 1) (h0 : v ≠ PyVal.pint 0) :
    statusOf v = PyVal.pnone := by
  have hc1 : ¬(v = PyVal.pbool true ∨ v = PyVal.pint 1) := by
    rintro (h | h)
    · exact hb true h
    · exact h1 h
  have hc2 : ¬(v = PyVal.pbool false ∨ v = PyVal.pint 0) := by
    rintro (h | h)
    · exact hb false h
    · exact h0 h
  rw [statusOf, if_neg hc1, if_neg hc2]

/-- The integer 1 hashes equal to `True` in the dict lookup and gets the
completed label. -/
theorem statusOf_pint_one : statusOf (PyVal.pint 1) = PyVal.pstr "Done ✅" := by
  decide

/-- The integer 0 hashes equal to `False` in the dict lookup and gets the
pending label. -/
theorem statusOf_pint_zero :
    statusOf (PyVal.pint 0) = PyVal.pstr "Pending ⏳" := by
  decide

/-- Whether a value is a text value (the one kind that derails the
numeric summary sum). -/
def isStr : PyVal → Bool
  | PyVal.pstr _ => true
  | _ => false

/-- The output row `process_data` produces for one record that carries
only the four schema keys. -/
def schemaRow (rec : RawRecord) : List PyVal :=
  [lookupField rec "id", lookupField rec "userId", lookupField rec "title",
   lookupField rec "completed", statusOf (lookupField rec "completed")]

/-- On any non-empty record list whose keys stay within the four-key raw
schema, where every record has `userId`, `id` and `title`, at least one
record has a `completed` key, and no present `completed` value is a
string, `process_data` succeeds and produces exactly the `schemaRow` of
each record, in order. -/
theorem process_data_malformed (data : List RawRecord)
    (hkeys : ∀ r ∈ data, ∀ kv ∈ r, kv.1 = "userId" ∨ kv.1 = "id" ∨
      kv.1 = "title" ∨ kv.1 = "completed")
    (hreq : ∀ r ∈ data, hasKey r "userId" = true ∧ hasKey r "id" = true ∧
      hasKey r "title" = true)
    (hsome : ∃ r ∈ data, hasKey r "completed" = true)
    (hcomp : ∀ r ∈ data, ∀ kv ∈ r, kv.1 = "completed" →
      isStr kv.2 = false) :
    ∃ completed, process_data data
      = some (⟨theFiveCols, data.map schemaRow⟩,
          (data.length : Int), completed,
          (data.length : Int) - completed) := by
  obtain ⟨r0, hr0, hr0c⟩ := hsome
  have hcs4 : ∀ k ∈ collectCols data, k = "userId" ∨ k = "id" ∨
      k = "title" ∨ k = "completed" := by
    intro k hk
    obtain ⟨r, hr, kv, hkv, rfl⟩ := mem_collectCols.mp hk
    exact hkeys r hr kv hkv
  have hmem_of_key : ∀ r ∈ data, ∀ k, hasKey r k = true →
      k ∈ collectCols data := by
    intro r hr k hk
    obtain ⟨kv, hkv, hkeq⟩ := hasKey_iff.mp hk
    exact mem_collectCols.mpr ⟨r, hr, kv, hkv, hkeq⟩
  have hmemC : "completed" ∈ collectCols data := hmem_of_key r0 hr0 _ hr0c
  have hmemU : "userId" ∈ collectCols data :=
    hmem_of_key r0 hr0 _ (hreq r0 hr0).1
  have hmemI : "id" ∈ collectCols data :=
    hmem_of_key r0 hr0 _ (hreq r0 hr0).2.1
  have hmemT : "title" ∈ collectCols data :=
    hmem_of_key r0 hr0 _ (hreq r0 hr0).2.2
  obtain ⟨iC, hiC⟩ :=
    Option.isSome_iff_exists.mp (colIdx_isSome_iff.mpr hmemC)
  obtain ⟨iU, hiU⟩ :=
    Option.isSome_iff_exists.mp (colIdx_isSome_iff.mpr hmemU)
  obtain ⟨iI, hiI⟩ :=
    Option.isSome_iff_exists.mp (colIdx_isSome_iff.mpr hmemI)
  obtain ⟨iT, hiT⟩ :=
    Option.isSome_iff_exists.mp (colIdx_isSome_iff.mpr hmemT)
  have hcgC : ∀ k ∈ collectCols data,
      renameKey k = "is_completed" ↔ k = "completed" := by
    intro k hk
    rcases hcs4 k hk with rfl | rfl | rfl | rfl <;> decide
  have hcgI : ∀ k ∈ collectCols data,
      renameKey k = "todo_id" ↔ k = "id" := by
    intro k hk
    rcases hcs4 k hk with rfl | rfl | rfl | rfl <;> decide
  have hcgU : ∀ k ∈ collectCols data,
      renameKey k = "user_id" ↔ k = "userId" := by
    intro k hk
    rcases hcs4 k hk with rfl | rfl | rfl | rfl <;> decide
  have hcgT : ∀ k ∈ collectCols data,
      renameKey k = "task" ↔ k = "title" := by
    intro k hk
    rcases hcs4 k hk with rfl | rfl | rfl | rfl <;> decide
  have hnoS : ∀ k ∈ collectCols data, renameKey k ≠ "status" := by
    intro k hk
    rcases hcs4 k hk with rfl | rfl | rfl | rfl <;> decide
  have hRC : colIdx ((collectCols data).map renameKey) "is_completed"
      = some iC := by rw [colIdx_map_congr hcgC, hiC]
  have hRI : colIdx ((collectCols data).map renameKey) "todo_id"
      = some iI := by rw [colIdx_map_congr hcgI, hiI]
  have hRU : colIdx ((collectCols data).map renameKey) "user_id"
      = some iU := by rw [colIdx_map_congr hcgU, hiU]
  have hRT : colIdx ((collectCols data).map renameKey) "task"
      = some iT := by rw [colIdx_map_congr hcgT, hiT]
  have hSnone : colIdx ((collectCols data).map renameKey) "status"
      = none := by
    apply colIdx_eq_none
    intro hmem
    obtain ⟨k, hk, hkeq⟩ := List.mem_map.mp hmem
    exact hnoS k hk hkeq
  have h1 : getCol (rename (makeDF data)) "is_completed"
      = some ((rename (makeDF data)).rows.map
          (fun row => row.getD iC PyVal.pnone)) :=
    getCol_of_colIdx (show colIdx ((collectCols data).map renameKey)
      "is_completed" = some iC from hRC)
  have hset : setCol (rename (makeDF data)) "status"
      (((rename (makeDF data)).rows.map
        (fun row => row.getD iC PyVal.pnone)).map statusOf)
      = ⟨(collectCols data).map renameKey ++ ["status"],
         (rename (makeDF data)).rows.map
           (fun r => r ++ [statusOf (r.getD iC PyVal.pnone)])⟩ := by
    have hzip : (rename (makeDF data)).rows.zip
        (((rename (makeDF data)).rows.map
          (fun row => row.getD iC PyVal.pnone)).map statusOf)
        = (rename (makeDF data)).rows.map
            (fun r => (r, statusOf (r.getD iC PyVal.pnone))) := by
      rw [List.map_map, zip_self_map]
      rfl
    have hstep : setCol (rename (makeDF data)) "status"
        (((rename (makeDF data)).rows.map
          (fun row => row.getD iC PyVal.pnone)).map statusOf)
        = ⟨(rename (makeDF data)).cols ++ ["status"],
           ((rename (makeDF data)).rows.zip
             (((rename (makeDF data)).rows.map
               (fun row => row.getD iC PyVal.pnone)).map statusOf)).map
             (fun rv => rv.1 ++ [rv.2])⟩ := by
      unfold setCol
      rw [show colIdx (rename (makeDF data)).cols "status" = none from hSnone]
    rw [hstep, hzip, List.map_map]
    rfl
  have hFI : colIdx ((collectCols data).map renameKey ++ ["status"])
      "todo_id" = some iI := colIdx_append_left _ hRI
  have hFU : colIdx ((collectCols data).map renameKey ++ ["status"])
      "user_id" = some iU := colIdx_append_left _ hRU
  have hFT : colIdx ((collectCols data).map renameKey ++ ["status"])
      "task" = some iT := colIdx_append_left _ hRT
  have hFC : colIdx ((collectCols data).map renameKey ++ ["status"])
      "is_completed" = some iC := colIdx_append_left _ hRC
  have hFS : colIdx ((collectCols data).map renameKey ++ ["status"])
      "status" = some ((collectCols data).map renameKey).length :=
    colIdx_append_self hSnone
  have hall : ∀ c ∈ theFiveCols,
      (colIdx ((collectCols data).map renameKey ++ ["status"]) c).isSome := by
    intro c hc
    simp only [theFiveCols, List.mem_cons, List.not_mem_nil, or_false] at hc
    rcases hc with rfl | rfl | rfl | rfl | rfl
    · rw [hFI]; rfl
    · rw [hFU]; rfl
    · rw [hFT]; rfl
    · rw [hFC]; rfl
    · rw [hFS]; rfl
  have h2 : selectCols (setCol (rename (makeDF data)) "status"
      (((rename (makeDF data)).rows.map
        (fun row => row.getD iC PyVal.pnone)).map statusOf)) theFiveCols
      = some ⟨theFiveCols,
          ((rename (makeDF data)).rows.map
            (fun r => r ++ [statusOf (r.getD iC PyVal.pnone)])).map
            (fun row => theFiveCols.map (fun c => row.getD
              ((colIdx ((collectCols data).map renameKey ++ ["status"]) c).getD 0)
              PyVal.pnone))⟩ := by
    rw [hset]
    exact @selectCols_of_all
      ⟨(collectCols data).map renameKey ++ ["status"],
       (rename (makeDF data)).rows.map
         (fun r => r ++ [statusOf (r.getD iC PyVal.pnone)])⟩
      theFiveCols hall
  have hrows2 : ((rename (makeDF data)).rows.map
        (fun r => r ++ [statusOf (r.getD iC PyVal.pnone)])).map
        (fun row => theFiveCols.map (fun c => row.getD
          ((colIdx ((collectCols data).map renameKey ++ ["status"]) c).getD 0)
          PyVal.pnone))
      = data.map schemaRow := by
    rw [List.map_map]
    rw [show (rename (makeDF data)).rows = data.map
      (fun rec => (collectCols data).map (lookupField rec)) from rfl]
    rw [List.map_map]
    apply List.map_congr_left
    intro rec hrec
    simp only [Function.comp_apply]
    have hcell : ∀ (j : Nat) (k : String), colIdx (collectCols data) k = some j →
        (((collectCols data).map (lookupField rec)) ++
          [statusOf (((collectCols data).map (lookupField rec)).getD iC
            PyVal.pnone)]).getD j PyVal.pnone = lookupField rec k := by
      intro j k hj
      rw [List.getD_append _ _ _ _
        (by rw [List.length_map]; exact colIdx_lt_length hj)]
      exact getD_map_colIdx hj _
    have hstatcell :
        (((collectCols data).map (lookupField rec)) ++
          [statusOf (((collectCols data).map (lookupField rec)).getD iC
            PyVal.pnone)]).getD ((collectCols data).map renameKey).length
          PyVal.pnone
        = statusOf (((collectCols data).map (lookupField rec)).getD iC
            PyVal.pnone) := by
      rw [show ((collectCols data).map renameKey).length
        = ((collectCols data).map (lookupField rec)).length by
          rw [List.length_map, List.length_map]]
      exact getD_concat_length
    have hcompcell : ((collectCols data).map (lookupField rec)).getD iC
        PyVal.pnone = lookupField rec "completed" := getD_map_colIdx hiC _
    simp only [theFiveCols, List.map_cons, List.map_nil, hFI, hFU, hFT,
      hFC, hFS, Option.getD_some]
    rw [hcell iI "id" hiI, hcell iU "userId" hiU, hcell iT "title" hiT,
      hcell iC "completed" hiC, hstatcell, hcompcell]
    rfl
  rw [hrows2] at h2
  have h3 : getCol (⟨theFiveCols, data.map schemaRow⟩ : DataFrame)
      "is_completed"
      = some ((data.map schemaRow).map
          (fun row => row.getD 3 PyVal.pnone)) :=
    getCol_of_colIdx (show colIdx theFiveCols "is_completed" = some 3 by decide)
  have hcomp2 : (data.map schemaRow).map (fun row => row.getD 3 PyVal.pnone)
      = data.map (fun rec => lookupField rec "completed") := by
    rw [List.map_map]
    apply List.map_congr_left
    intro rec _
    rfl
  have hnostr : ∀ v ∈ data.map (fun rec => lookupField rec "completed"),
      ∀ s, v ≠ PyVal.pstr s := by
    intro v hv s hvs
    obtain ⟨rec, hrec, rfl⟩ := List.mem_map.mp hv
    rcases lookupField_cases rec "completed" with ⟨kv, hkv, hk1, hk2⟩ | hnone
    · have hne := hcomp rec hrec kv hkv hk1
      rw [hk2, hvs] at hne
      simp [isStr] at hne
    · rw [hnone] at hvs
      cases hvs
  have hsum0 : (sumCol ((data.map schemaRow).map
      (fun row => row.getD 3 PyVal.pnone))).isSome := by
    rw [hcomp2]
    exact sumCol_isSome _ hnostr
  obtain ⟨completed, hsum⟩ := Option.isSome_iff_exists.mp hsum0
  refine ⟨completed, ?_⟩
  simp only [process_data, h1, h2, h3, hsum, List.length_map]

/-! ### Claims -/

/-- C1 counterexample: on the empty record list the transform does not
return a zero-row five-column table; it fails (the pandas `KeyError` on
`df["is_completed"]`, since the empty frame has no columns). -/
theorem c1_empty_input_raises : process_data ([] : List RawRecord) = none := by
  decide

/-- C1 (amended): for the empty input list, the transform raises a
missing-column error, the run exits non-zero, and no output file is ever
created, so there is no header-only file and no `total=0` summary. -/
theorem c1_empty_input_behavior :
    process_data ([] : List RawRecord) = none ∧
    (run (FetchOutcome.success [])).exitCode = 1 ∧
    (run (FetchOutcome.success [])).outputFile = none := by
  exact ⟨by decide, by decide, by decide⟩

/-- C2 counterexample: on the single-record scenario input the produced
row has `is_completed = true` but its `status` text is "Done ✅" (with the
emoji suffix), which differs from the text "Done". -/
theorem c2_status_label_counterexample :
    process_data [sampleRecord] = some (sampleDF, 1, 1, 0) ∧
    (sampleDF.rows.getD 0 []).getD 3 PyVal.pnone = PyVal.pbool true ∧
    (sampleDF.rows.getD 0 []).getD 4 PyVal.pnone = PyVal.pstr "Done ✅" ∧
    PyVal.pstr "Done ✅" ≠ PyVal.pstr "Done" := by
  exact ⟨by decide, by decide, by decide, by decide⟩

/-- C2 (amended): in every successfully transformed table, a row's
`status` cell equals "Done ✅" iff its `is_completed` cell is the boolean
`true` or the integer 1, and equals "Pending ⏳" iff that cell is the
boolean `false` or the integer 0 — Python's dict lookup in
`.map({True: ..., False: ...})` treats 1 as `True` and 0 as `False`; any
other cell yields a missing status, neither label. -/
theorem c2_status_iff_completed {data : List RawRecord} {df : DataFrame}
    {t c p : Int} (h : process_data data = some (df, t, c, p)) :
    ∀ row ∈ df.rows,
      ((row.getD 4 PyVal.pnone = PyVal.pstr "Done ✅") ↔
        (row.getD 3 PyVal.pnone = PyVal.pbool true ∨
         row.getD 3 PyVal.pnone = PyVal.pint 1)) ∧
      ((row.getD 4 PyVal.pnone = PyVal.pstr "Pending ⏳") ↔
        (row.getD 3 PyVal.pnone = PyVal.pbool false ∨
         row.getD 3 PyVal.pnone = PyVal.pint 0)) := by
  obtain ⟨-, -, hrows, -⟩ := process_data_char h
  intro row hrow
  obtain ⟨a, b, d, e, rfl⟩ := hrows row hrow
  simp only [List.getD_cons_succ, List.getD_cons_zero]
  rw [statusOf]
  by_cases h1 : e = PyVal.pbool true ∨ e = PyVal.pint 1
  · rw [if_pos h1]
    refine ⟨⟨fun _ => h1, fun _ => rfl⟩, ⟨fun hh => absurd hh (by decide), ?_⟩⟩
    rintro (rfl | rfl) <;> exact absurd h1 (by decide)
  · rw [if_neg h1]
    by_cases h2 : e = PyVal.pbool false ∨ e = PyVal.pint 0
    · rw [if_pos h2]
      exact ⟨⟨fun hh => absurd hh (by decide), fun hh => absurd hh h1⟩,
        ⟨fun _ => h2, fun _ => rfl⟩⟩
    · rw [if_neg h2]
      exact ⟨⟨fun hh => absurd hh (by decide), fun hh => absurd hh h1⟩,
        ⟨fun hh => absurd hh (by decide), fun hh => absurd hh h2⟩⟩

/-- C2 witness: the amended status law applied to the one-row sample. -/
theorem c2_status_iff_completed_witness :
    (((sampleDF.rows.getD 0 []).getD 4 PyVal.pnone = PyVal.pstr "Done ✅") ↔
      ((sampleDF.rows.getD 0 []).getD 3 PyVal.pnone = PyVal.pbool true ∨
       (sampleDF.rows.getD 0 []).getD 3 PyVal.pnone = PyVal.pint 1)) ∧
    (((sampleDF.rows.getD 0 []).getD 4 PyVal.pnone = PyVal.pstr "Pending ⏳") ↔
      ((sampleDF.rows.getD 0 []).getD 3 PyVal.pnone = PyVal.pbool false ∨
       (sampleDF.rows.getD 0 []).getD 3 PyVal.pnone = PyVal.pint 0)) :=
  @c2_status_iff_completed [sampleRecord] sampleDF 1 1 0 (by decide)
    (sampleDF.rows.getD 0 []) (by decide)

/-- C3 counterexample: on the scenario input the file's one data row is
"1,1,A,True,Done ✅", not "1,1,A,True,Done". -/
theorem c3_output_row_counterexample :
    (run (FetchOutcome.success [sampleRecord])).outputFile
      = some (OUTPUT, ["todo_id,user_id,task,is_completed,status",
          "1,1,A,True,Done ✅"]) ∧
    "1,1,A,True,Done ✅" ≠ "1,1,A,True,Done" := by
  exact ⟨by decide, by decide⟩

/-- C3 (amended): for the single scenario record, the transform-then-save
pipeline writes exactly one data row, and that row is
`1,1,A,True,Done ✅`. -/
theorem c3_single_row_scenario :
    process_data [sampleRecord] = some (sampleDF, 1, 1, 0) ∧
    csvLines sampleDF = ["todo_id,user_id,task,is_completed,status",
      "1,1,A,True,Done ✅"] := by
  exact ⟨by decide, by decide⟩

/-- C4: whenever the transform succeeds, the counters it computes satisfy
`completed + pending = total` with `total` the row count; and whenever the
final `is_completed` column is boolean-or-missing, `completed` is the
number of `true` cells. -/
theorem c4_summary_invariant {data : List RawRecord} {df : DataFrame}
    {t c p : Int} (h : process_data data = some (df, t, c, p)) :
    c + p = t ∧ t = (data.length : Int) ∧
    ∀ vs, getCol df "is_completed" = some vs →
      (∀ v ∈ vs, v = PyVal.pbool true ∨ v = PyVal.pbool false ∨
        v = PyVal.pnone) →
      c = ((vs.countP (fun v => v == PyVal.pbool true) : Nat) : Int) := by
  obtain ⟨-, -, -, ⟨vs0, hvs0, hsum0⟩, ht, hp⟩ := process_data_char h
  refine ⟨by rw [hp, ht]; ring, ht, ?_⟩
  intro vs hvs hbool
  rw [hvs0] at hvs
  injection hvs with hvs
  subst hvs
  rw [sumCol_boolish vs0 hbool] at hsum0
  injection hsum0 with hsum0
  exact hsum0.symm

/-- C4 witness: the summary invariant at the one-row sample input. -/
theorem c4_summary_invariant_witness :
    (1 : Int) + 0 = 1 ∧
    (1 : Int) = ((([PyVal.pbool true] : List PyVal).countP
      (fun v => v == PyVal.pbool true) : Nat) : Int) := by
  have h := @c4_summary_invariant [sampleRecord] sampleDF 1 1 0 (by decide)
  exact ⟨h.1, h.2.2 [PyVal.pbool true] (by decide) (by decide)⟩

/-- C5: whenever the transform succeeds, the table has one row per input
record, and the saved file has exactly one line per record plus the
header. -/
theorem c5_row_count_preserved {data : List RawRecord} {df : DataFrame}
    {t c p : Int} (h : process_data data = some (df, t, c, p)) :
    df.rows.length = data.length ∧
    (csvLines df).length = data.length + 1 := by
  obtain ⟨-, hlen, -⟩ := process_data_char h
  refine ⟨hlen, ?_⟩
  simp [csvLines, hlen]

/-- C5 witness: row counts at the one-row sample input. -/
theorem c5_row_count_preserved_witness :
    sampleDF.rows.length = [sampleRecord].length ∧
    (csvLines sampleDF).length = [sampleRecord].length + 1 :=
  @c5_row_count_preserved [sampleRecord] sampleDF 1 1 0 (by decide)

/-- C6: whenever the transform succeeds, the first line of the saved file
is exactly `todo_id,user_id,task,is_completed,status`, for every input. -/
theorem c6_header_fixed {data : List RawRecord} {df : DataFrame}
    {t c p : Int} (h : process_data data = some (df, t, c, p)) :
    (csvLines df).head? = some "todo_id,user_id,task,is_completed,status" := by
  obtain ⟨hcols, -⟩ := process_data_char h
  show some (csvHeader df) = _
  rw [csvHeader, hcols]
  decide

/-- C6 witness: the header line at the one-row sample input. -/
theorem c6_header_fixed_witness :
    (csvLines sampleDF).head?
      = some "todo_id,user_id,task,is_completed,status" :=
  @c6_header_fixed [sampleRecord] sampleDF 1 1 0 (by decide)

/-- C7 counterexample: a fetch that succeeds with an empty JSON array
still ends in a non-zero process exit (the transform raises on the empty
frame), so fetch success alone does not give exit code 0. -/
theorem c7_fetch_success_nonzero_exit :
    fetch_todos (FetchOutcome.success []) = Except.ok [] ∧
    (run (FetchOutcome.success [])).exitCode = 1 ∧ (1 : Nat) ≠ 0 := by
  exact ⟨rfl, by decide, by decide⟩

/-- C7 (amended): the fetch exits non-zero with a descriptive message in
exactly the four failure cases (the HTTP case reporting the status code,
the generic case reporting the cause), performs no exit on success, never
retries, and the process exits 0 on fetch success provided the remaining
stages succeed. -/
theorem c7_fetch_error_classification :
    (∀ d, fetch_todos (FetchOutcome.success d) = Except.ok d) ∧
    fetch_todos FetchOutcome.connectionError = Except.error
      ⟨["❌  ERROR: Could not connect. Check your internet connection."], 1⟩ ∧
    fetch_todos FetchOutcome.timeoutError = Except.error
      ⟨["❌  ERROR: The request timed out. The server may be slow."], 1⟩ ∧
    (∀ code, fetch_todos (FetchOutcome.httpError code) = Except.error
      ⟨["❌  HTTP ERROR", "    Status Code: " ++ toString code], 1⟩) ∧
    (∀ cause, fetch_todos (FetchOutcome.otherError cause) = Except.error
      ⟨["❌  UNEXPECTED ERROR: " ++ cause], 1⟩) ∧
    (∀ o f, fetch_todos o = Except.error f → f.exitCode = 1) ∧
    (∀ data df t c p, process_data data = some (df, t, c, p) →
      (run (FetchOutcome.success data)).exitCode = 0) := by
  refine ⟨fun d => rfl, rfl, rfl, fun code => rfl, fun cause => rfl, ?_, ?_⟩
  · intro o f hf
    cases o with
    | success d => cases hf
    | connectionError => injection hf with hf; rw [← hf]
    | timeoutError => injection hf with hf; rw [← hf]
    | httpError code => injection hf with hf; rw [← hf]
    | otherError cause => injection hf with hf; rw [← hf]
  · intro data df t c p h
    simp [run, fetch_todos, h]

/-- C7 witness: the classification at status 500 and exit 0 on the
fully-successful sample run. -/
theorem c7_fetch_error_classification_witness :
    fetch_todos (FetchOutcome.httpError 500) = Except.error
      ⟨["❌  HTTP ERROR", "    Status Code: " ++ toString 500], 1⟩ ∧
    (run (FetchOutcome.success [sampleRecord])).exitCode = 0 := by
  have h := c7_fetch_error_classification
  exact ⟨h.2.2.2.1 500, h.2.2.2.2.2.2 [sampleRecord] sampleDF 1 1 0 (by decide)⟩

/-- C8: on any fetch failure the run writes no file and completes none of
the later steps, exiting non-zero; and whenever a file is written, all
four steps completed and the exit code is 0. -/
theorem c8_no_file_on_fetch_failure :
    ∀ o : FetchOutcome,
      ((∃ f, fetch_todos o = Except.error f) →
        (run o).outputFile = none ∧ (run o).transformed = false ∧
        (run o).saved = false ∧ (run o).previewed = false ∧
        (run o).exitCode ≠ 0) ∧
      ((run o).outputFile ≠ none →
        (run o).fetched = true ∧ (run o).transformed = true ∧
        (run o).saved = true ∧ (run o).previewed = true ∧
        (run o).exitCode = 0) := by
  intro o
  cases o with
  | success d =>
    refine ⟨?_, ?_⟩
    · rintro ⟨f, hf⟩
      simp [fetch_todos] at hf
    · intro hout
      cases hp : process_data d with
      | none => simp [run, fetch_todos, hp] at hout
      | some x =>
        obtain ⟨df, t, c, p⟩ := x
        simp [run, fetch_todos, hp]
  | connectionError =>
    exact ⟨fun _ => ⟨rfl, rfl, rfl, rfl, Nat.one_ne_zero⟩,
      fun hout => absurd rfl hout⟩
  | timeoutError =>
    exact ⟨fun _ => ⟨rfl, rfl, rfl, rfl, Nat.one_ne_zero⟩,
      fun hout => absurd rfl hout⟩
  | httpError code =>
    exact ⟨fun _ => ⟨rfl, rfl, rfl, rfl, Nat.one_ne_zero⟩,
      fun hout => absurd rfl hout⟩
  | otherError cause =>
    exact ⟨fun _ => ⟨rfl, rfl, rfl, rfl, Nat.one_ne_zero⟩,
      fun hout => absurd rfl hout⟩

/-- C8 witness: no file on a connection failure; preview completed on the
fully successful sample run. -/
theorem c8_no_file_on_fetch_failure_witness :
    (run FetchOutcome.connectionError).outputFile = none ∧
    (run (FetchOutcome.success [sampleRecord])).previewed = true := by
  have h1 := (c8_no_file_on_fetch_failure FetchOutcome.connectionError).1
    ⟨_, rfl⟩
  have h2 := (c8_no_file_on_fetch_failure (FetchOutcome.success
    [sampleRecord])).2 (by decide)
  exact ⟨h1.1, h2.2.2.2.1⟩

/-- C9: `preview` yields exactly the first `min(n, row_count)` rows in
table order, its `n` defaults to 5, an oversized `n` yields all rows, and
an empty table yields no rows; it is a pure function of the table. -/
theorem c9_preview_takes_min :
    ∀ (df : DataFrame) (n : Nat),
      preview df n = df.rows.take n ∧
      (preview df n).length = min n df.rows.length ∧
      previewDefault df = preview df 5 ∧
      (df.rows.length ≤ n → preview df n = df.rows) ∧
      (df.rows = [] → preview df n = []) := by
  intro df n
  refine ⟨rfl, ?_, rfl, ?_, ?_⟩
  · show (df.rows.take n).length = _
    exact List.length_take n df.rows
  · intro hle
    show df.rows.take n = df.rows
    exact List.take_of_length_le hle
  · intro hnil
    show df.rows.take n = []
    rw [hnil, List.take_nil]

/-- C9 witness: an oversized `n` on the sample table, and preview of an
empty table. -/
theorem c9_preview_takes_min_witness :
    preview sampleDF 7 = sampleDF.rows ∧
    preview ⟨theFiveCols, []⟩ 3 = [] := by
  have h1 := c9_preview_takes_min sampleDF 7
  have h2 := c9_preview_takes_min ⟨theFiveCols, []⟩ 3
  exact ⟨h1.2.2.2.1 (by decide), h2.2.2.2.2 rfl⟩

/-- C10 counterexample: a non-empty input whose single record lacks the
`completed` key makes the transform fail (no `is_completed` column, a
pandas `KeyError`), contradicting the claim that such inputs never fail. -/
theorem c10_missing_column_counterexample :
    process_data [noCompletedRecord] = none := by decide

/-- C10 (amended): on a non-empty schema-keyed input in which every record
has `userId`, `id` and `title`, at least one record carries a `completed`
key, and no present `completed` value is a string, the transform does not
fail: it yields one row per record; a record whose `completed` value is
absent, or is neither a boolean nor one of the integers 1 and 0, gets a
missing (null) `status`; the integers 1 and 0 are treated by Python's
dict lookup as `True` and `False` and get the corresponding labels. -/
theorem c10_malformed_completed_tolerated (data : List RawRecord)
    (hkeys : ∀ r ∈ data, ∀ kv ∈ r, kv.1 = "userId" ∨ kv.1 = "id" ∨
      kv.1 = "title" ∨ kv.1 = "completed")
    (hreq : ∀ r ∈ data, hasKey r "userId" = true ∧ hasKey r "id" = true ∧
      hasKey r "title" = true)
    (hsome : ∃ r ∈ data, hasKey r "completed" = true)
    (hcomp : ∀ r ∈ data, ∀ kv ∈ r, kv.1 = "completed" →
      isStr kv.2 = false) :
    ∃ df completed, process_data data
        = some (df, (data.length : Int), completed,
            (data.length : Int) - completed) ∧
      df.rows.length = data.length ∧
      df.rows = data.map schemaRow ∧
      (∀ rec ∈ data, (∀ b, lookupField rec "completed" ≠ PyVal.pbool b) →
        lookupField rec "completed" ≠ PyVal.pint 1 →
        lookupField rec "completed" ≠ PyVal.pint 0 →
        (schemaRow rec).getD 4 PyVal.pnone = PyVal.pnone) ∧
      (∀ rec ∈ data, lookupField rec "completed" = PyVal.pint 1 →
        (schemaRow rec).getD 4 PyVal.pnone = PyVal.pstr "Done ✅") ∧
      (∀ rec ∈ data, lookupField rec "completed" = PyVal.pint 0 →
        (schemaRow rec).getD 4 PyVal.pnone = PyVal.pstr "Pending ⏳") := by
  obtain ⟨completed, hpd⟩ :=
    process_data_malformed data hkeys hreq hsome hcomp
  refine ⟨_, completed, hpd, ?_, rfl, ?_, ?_, ?_⟩
  · show (data.map schemaRow).length = data.length
    exact List.length_map _ _
  · intro rec _ hnb hn1 hn0
    show statusOf (lookupField rec "completed") = PyVal.pnone
    exact statusOf_eq_pnone hnb hn1 hn0
  · intro rec _ hl
    show statusOf (lookupField rec "completed") = PyVal.pstr "Done ✅"
    rw [hl]
    exact statusOf_pint_one
  · intro rec _ hl
    show statusOf (lookupField rec "completed") = PyVal.pstr "Pending ⏳"
    rw [hl]
    exact statusOf_pint_zero

/-- C10 witness: one record with a null `completed` and one with the key
absent; the transform succeeds with null statuses for both. -/
theorem c10_malformed_completed_tolerated_witness :
    ∃ df completed, process_data [nullCompletedRecord, noCompletedRecord]
        = some (df, (([nullCompletedRecord, noCompletedRecord].length : Nat) : Int),
            completed,
            (([nullCompletedRecord, noCompletedRecord].length : Nat) : Int)
              - completed) ∧
      df.rows.length = [nullCompletedRecord, noCompletedRecord].length ∧
      df.rows = [nullCompletedRecord, noCompletedRecord].map schemaRow ∧
      (∀ rec ∈ [nullCompletedRecord, noCompletedRecord],
        (∀ b, lookupField rec "completed" ≠ PyVal.pbool b) →
        lookupField rec "completed" ≠ PyVal.pint 1 →
        lookupField rec "completed" ≠ PyVal.pint 0 →
        (schemaRow rec).getD 4 PyVal.pnone = PyVal.pnone) ∧
      (∀ rec ∈ [nullCompletedRecord, noCompletedRecord],
        lookupField rec "completed" = PyVal.pint 1 →
        (schemaRow rec).getD 4 PyVal.pnone = PyVal.pstr "Done ✅") ∧
      (∀ rec ∈ [nullCompletedRecord, noCompletedRecord],
        lookupField rec "completed" = PyVal.pint 0 →
        (schemaRow rec).getD 4 PyVal.pnone = PyVal.pstr "Pending ⏳") :=
  c10_malformed_completed_tolerated [nullCompletedRecord, noCompletedRecord]
    (by decide) (by decide) (by decide) (by decide)

end FetchTodos
